import Mathlib

/-!
Shallow embedding of the event-node layer (`react/detail/graph/EventNodes.h`)
and the subtree engine's per-vertex ready-count arithmetic
(`react/engine/SubtreeEngine.h`) of the cpp.react reactive-programming
library, together with theorems checking the library's specification
against this embedding.

Machine integers are modelled as `Nat` with explicit `% 2^w` where the
source can overflow (`uint16_t` ready counts); turn ids are `Nat`
(`curTurnId_` starts at the `uint` maximum); the engine callbacks a node
performs (`OnInputChange`, `OnNodePulse`, ...) are recorded as an explicit
call trace; `REACT_ASSERT` failures are an explicit outcome constructor.
-/

namespace React

/-- `(std::numeric_limits<uint>::max)()`, the initial value of
`EventStreamNode::curTurnId_`. -/
def uintMax : Nat := 4294967295

/-- `2^16`, the modulus of the `uint16_t` fields of `subtree::Node`. -/
def u16Mod : Nat := 65536

/-- State of an `EventStreamNode<D,E>`: the event buffer `events_` and the
last-seen turn id `curTurnId_`. -/
structure EventStreamState (E : Type) where
  events : List E
  curTurnId : Nat
deriving Repr, DecidableEq

/-- A freshly constructed `EventStreamNode`: empty buffer, `curTurnId_`
initialised to the `uint` maximum. -/
def EventStreamState.init (E : Type) : EventStreamState E :=
  { events := [], curTurnId := uintMax }

/-- `EventStreamNode::SetCurrentTurn(turn, forceUpdate, noClear)`:
if the stored turn id differs from `turn.Id()` or `forceUpdate` is set,
store `turn.Id()` and, unless `noClear`, clear the buffer. -/
def setCurrentTurn {E : Type} (s : EventStreamState E) (turnId : Nat)
    (forceUpdate noClear : Bool) : EventStreamState E :=
  if s.curTurnId ≠ turnId ∨ forceUpdate = true then
    { curTurnId := turnId,
      events := if noClear then s.events else [] }
  else
    s

/-- The calls a node makes into the engine (`Engine::OnInputChange`, ...)
during `ApplyInput`/`Tick`, recorded as a trace.  The dynamic variants
carry the identity of the inner node they are called on. -/
inductive EngineCall where
  | onInputChange
  | onNodePulse
  | onNodeIdlePulse
  | onDynamicNodeDetach (innerId : Nat)
  | onDynamicNodeAttach (innerId : Nat)
deriving Repr, DecidableEq

/-- State of an `EventSourceNode<D,E>`: the inherited stream state plus
`changedFlag_`. -/
structure EventSourceState (E : Type) where
  stream : EventStreamState E
  changedFlag : Bool
deriving Repr, DecidableEq

/-- `EventSourceNode::AddInput(v)`: if `changedFlag_` is set the buffer
still holds the input of a previous (already applied) turn, so it is
cleared and the flag reset; then `v` is appended. -/
def addInput {E : Type} (s : EventSourceState E) (v : E) : EventSourceState E :=
  let s1 :=
    if s.changedFlag = true then
      { stream := { s.stream with events := [] }, changedFlag := false }
    else
      s
  { s1 with stream := { s1.stream with events := s1.stream.events ++ [v] } }

/-- `EventSourceNode::ApplyInput(turnPtr)`: when the buffer is non-empty
and `changedFlag_` is not yet set, adopt the turn (`SetCurrentTurn(turn,
true, true)`: force, no clear), set the flag, call
`Engine::OnInputChange` and return `true`; otherwise return `false`
without touching anything.  Result: (new state, returned bool, engine
calls made). -/
def applyInput {E : Type} (s : EventSourceState E) (turnId : Nat) :
    EventSourceState E × Bool × List EngineCall :=
  if 0 < s.stream.events.length ∧ s.changedFlag = false then
    ({ stream := setCurrentTurn s.stream turnId true true, changedFlag := true },
     true, [EngineCall.onInputChange])
  else
    (s, false, [])

/-- Outcome of a node member that may fail a `REACT_ASSERT`: either the
updated state together with the engine calls made, or an assertion
failure carrying the assertion's message. -/
inductive TickOutcome (σ : Type) where
  | ok (state : σ) (calls : List EngineCall)
  | assertFailed (msg : String)
deriving Repr

/-- `REACT_ASSERT(cond, msg)`: when `cond` fails, execution terminates
with the assertion message; otherwise the continuation runs. -/
def reactAssert {σ : Type} (cond : Bool) (msg : String) (k : TickOutcome σ) :
    TickOutcome σ :=
  if cond then k else TickOutcome.assertFailed msg

/-- The message of the assertion in `EventSourceNode::Tick`. -/
def tickedSourceMsg : String := "Ticked EventSourceNode\n"

/-- `EventSourceNode::Tick(turnPtr)`: `REACT_ASSERT(false, "Ticked
EventSourceNode\n")` — an input vertex is never validly ticked. -/
def eventSourceTick {E : Type} (s : EventSourceState E) (_turnId : Nat) :
    TickOutcome (EventSourceState E) :=
  reactAssert false tickedSourceMsg (TickOutcome.ok s [])

/-- The non-engine actions of an `EventOpNode` recorded for the steal /
destructor discipline: `op_.Detach<D>(*this)` and
`Engine::OnNodeDestroy(*this)`. -/
inductive OpAction where
  | detachOp
  | onNodeDestroy
deriving Repr, DecidableEq

/-- State of an `EventOpNode<D,E,TOp>`: inherited stream state, the held
op `op_`, and `wasOpStolen_`. -/
structure EventOpState (E Op : Type) where
  stream : EventStreamState E
  op : Op
  wasOpStolen : Bool
deriving Repr, DecidableEq

/-- The message of the assertion in `EventOpNode::StealOp`. -/
def stolenTwiceMsg : String := "Op was already stolen."

/-- Result of `EventOpNode::StealOp()`: either the moved-out op, the
node's new state and the actions performed, or an assertion failure. -/
inductive StealResult (E Op : Type) where
  | stolen (op : Op) (state : EventOpState E Op) (actions : List OpAction)
  | assertFailed (msg : String)
deriving Repr

/-- `EventOpNode::StealOp()`: asserts `wasOpStolen_ == false`, then sets
the flag, detaches the op from the node and returns it by move. -/
def stealOp {E Op : Type} (s : EventOpState E Op) : StealResult E Op :=
  if s.wasOpStolen = false then
    StealResult.stolen s.op { s with wasOpStolen := true } [OpAction.detachOp]
  else
    StealResult.assertFailed stolenTwiceMsg

/-- `EventOpNode::~EventOpNode()`: detaches the op only when it was not
stolen, then `Engine::OnNodeDestroy`. -/
def eventOpDestructorActions {E Op : Type} (s : EventOpState E Op) : List OpAction :=
  (if s.wasOpStolen = false then [OpAction.detachOp] else []) ++ [OpAction.onNodeDestroy]

/-- State of `subtree::Node` relevant to the ready-count members: the
`atomic<uint16_t> readyCount_` and the `uint16_t WaitCount`, both values
below `2^16`. -/
structure NodeState where
  readyCount : Nat
  waitCount : Nat
deriving Repr, DecidableEq

/-- `subtree::Node::IncReadyCount()`: `t = readyCount_.fetch_add(1)`
(wrapping at `2^16`), returning `t < (WaitCount - 1)` where both
`uint16_t` operands are promoted to `int` (so `WaitCount = 0` yields the
comparison against `-1`). -/
def incReadyCount (s : NodeState) : NodeState × Bool :=
  let t := s.readyCount
  ({ s with readyCount := (t + 1) % u16Mod },
   decide ((t : Int) < (s.waitCount : Int) - 1))

/-- `subtree::Node::DecReadyCount()`: `readyCount_.fetch_sub(1)`
(wrapping at `2^16`, so a decrement at 0 stores `2^16 - 1`), returning
whether the pre-decrement value exceeds 1.  The source performs no
underflow check. -/
def decReadyCount (s : NodeState) : NodeState × Bool :=
  let t := s.readyCount
  ({ s with readyCount := (t + (u16Mod - 1)) % u16Mod },
   decide (1 < t))

/-- State of an `EventFlattenNode<D,TOuter,TInner>` itself: its own
stream state and the identity of the current inner node `inner_`
(shared-pointer identity modelled as a `Nat` id). -/
structure FlattenState (E : Type) where
  stream : EventStreamState E
  inner : Nat
deriving Repr

/-- The surroundings `EventFlattenNode::Tick` reads: the inner-node id
the outer signal currently holds (`outer_->ValueRef().NodePtr()`) and
the stream state of every inner event node, by id. -/
structure FlattenEnv (E : Type) where
  outerInner : Nat
  innerStates : Nat → EventStreamState E

/-- Pointwise update of the inner-node states. -/
def updateNode {E : Type} (f : Nat → EventStreamState E) (i : Nat)
    (s : EventStreamState E) : Nat → EventStreamState E :=
  fun j => if j = i then s else f j

/-- `EventFlattenNode::Tick(turnPtr)`: force-adopt the turn on the own
buffer, `SetCurrentTurn` on the inner node; if the outer signal's inner
node differs from `inner_`, adopt the turn on the new inner, substitute
it, call `OnDynamicNodeDetach` on the old and `OnDynamicNodeAttach` on
the new inner and return; otherwise append the inner node's events to the
own buffer and end with `OnNodePulse` (non-empty) or `OnNodeIdlePulse`
(empty).  Result: (own new state, inner-node states, engine calls). -/
def flattenTick {E : Type} (env : FlattenEnv E) (s : FlattenState E) (turnId : Nat) :
    FlattenState E × (Nat → EventStreamState E) × List EngineCall :=
  let own := setCurrentTurn s.stream turnId true false
  let nodes := updateNode env.innerStates s.inner
    (setCurrentTurn (env.innerStates s.inner) turnId false false)
  let newInner := env.outerInner
  if newInner ≠ s.inner then
    let nodes2 := updateNode nodes newInner
      (setCurrentTurn (nodes newInner) turnId false false)
    ({ stream := own, inner := newInner }, nodes2,
     [EngineCall.onDynamicNodeDetach s.inner, EngineCall.onDynamicNodeAttach newInner])
  else
    let merged : EventStreamState E :=
      { own with events := own.events ++ (nodes s.inner).events }
    ({ stream := merged, inner := s.inner }, nodes,
     if 0 < merged.events.length then [EngineCall.onNodePulse]
     else [EngineCall.onNodeIdlePulse])

/-- State of a `SyncedEventFilterNode<D,E,TFunc,TDepValues...>`: its own
stream state, the source node's stream state, and the current values of
the dependency signals (the pack `deps_`, read through `ValueRef()`,
modelled as one value of type `Dv`). -/
structure SyncedFilterState (E Dv : Type) where
  stream : EventStreamState E
  source : EventStreamState E
  depsValue : Dv
deriving Repr

/-- `SyncedEventFilterNode::Tick(turnPtr)` with filter `p`: force-adopt
the turn on the own buffer, `SetCurrentTurn` on the source (so it holds
no events of a previous turn), push back every source event accepted by
the filter (evaluated with the dependency values), and end with
`OnNodePulse` when the buffer is non-empty, else `OnNodeIdlePulse`. -/
def syncedEventFilterTick {E Dv : Type} (p : E → Dv → Bool)
    (s : SyncedFilterState E Dv) (turnId : Nat) :
    SyncedFilterState E Dv × List EngineCall :=
  let own := setCurrentTurn s.stream turnId true false
  let src := setCurrentTurn s.source turnId false false
  let own2 : EventStreamState E :=
    { own with events := own.events ++ src.events.filter (fun e => p e s.depsValue) }
  ({ stream := own2, source := src, depsValue := s.depsValue },
   if own2.events.isEmpty then [EngineCall.onNodeIdlePulse]
   else [EngineCall.onNodePulse])

/-- One access to an event-stream vertex's buffer during a turn: a
`SetCurrentTurn(turn, forceUpdate, noClear)` call, or a
`events_.push_back(v)` performed by the vertex's own recomputation. -/
inductive BufferAccess (E : Type) where
  | setTurn (forceUpdate noClear : Bool)
  | push (v : E)
deriving Repr, DecidableEq

/-- Effect of one buffer access at turn `turnId`. -/
def applyAccess {E : Type} (turnId : Nat) (s : EventStreamState E) :
    BufferAccess E → EventStreamState E
  | BufferAccess.setTurn f nc => setCurrentTurn s turnId f nc
  | BufferAccess.push v => { s with events := s.events ++ [v] }

/-- Whether one access clears the buffer (the branch of `SetCurrentTurn`
that runs `events_.clear()`). -/
def clearedBy {E : Type} (turnId : Nat) (s : EventStreamState E) :
    BufferAccess E → Bool
  | BufferAccess.setTurn f nc =>
      decide (s.curTurnId ≠ turnId ∨ f = true) && !nc
  | BufferAccess.push _ => false

/-- Run a sequence of buffer accesses at turn `turnId`, returning the
final stream state and how many of the accesses cleared the buffer. -/
def runAccesses {E : Type} (turnId : Nat) (s : EventStreamState E) :
    List (BufferAccess E) → EventStreamState E × Nat
  | [] => (s, 0)
  | a :: rest =>
      let s1 := applyAccess turnId s a
      let r := runAccesses turnId s1 rest
      (r.1, (if clearedBy turnId s a = true then 1 else 0) + r.2)

/-- The values appended by the `push` accesses of a trace, in order. -/
def pushedValues {E : Type} : List (BufferAccess E) → List E
  | [] => []
  | BufferAccess.setTurn _ _ :: rest => pushedValues rest
  | BufferAccess.push v :: rest => v :: pushedValues rest

/-- An access that does not force an update: every `SetCurrentTurn` call
of the code other than the one at the top of the vertex's own `Tick` /
`ApplyInput` passes `forceUpdate = false` (readers use the defaults). -/
def noForcedSetTurn {E : Type} : BufferAccess E → Bool
  | BufferAccess.setTurn f _ => !f
  | BufferAccess.push _ => true

/-! ## Helper lemmas -/

/-- `AddInput` on a source whose `changedFlag_` is clear only appends;
iterating it appends the whole list and leaves the flag clear. -/
theorem foldl_addInput_of_not_changed {E : Type} (vs : List E) :
    ∀ s : EventSourceState E, s.changedFlag = false →
      (vs.foldl addInput s).stream.events = s.stream.events ++ vs
      ∧ (vs.foldl addInput s).changedFlag = false := by
  induction vs with
  | nil => intro s h; simp [h]
  | cons v rest ih =>
      intro s h
      have hstep : addInput s v =
          { s with stream := { s.stream with events := s.stream.events ++ [v] } } := by
        simp [addInput, h]
      have h2 := ih (addInput s v) (by rw [hstep]; exact h)
      rw [List.foldl_cons]
      refine ⟨?_, h2.2⟩
      rw [h2.1, hstep]
      simp

/-- After any `setCurrentTurn` at turn `t`, the stored turn id is `t` or
was `t` already. -/
theorem setCurrentTurn_curTurnId_eq {E : Type} (s : EventStreamState E)
    (t : Nat) (f nc : Bool) : (setCurrentTurn s t f nc).curTurnId = t := by
  unfold setCurrentTurn
  by_cases h : s.curTurnId = t
  · split <;> simp [h]
  · simp [h]

/-- Once the stored turn id equals the turn's id, a trace of accesses
without forced `SetCurrentTurn` calls never clears and only appends the
pushed values. -/
theorem runAccesses_no_force {E : Type} (t : Nat) (trace : List (BufferAccess E)) :
    ∀ s : EventStreamState E, s.curTurnId = t →
      (∀ b ∈ trace, noForcedSetTurn b = true) →
      runAccesses t s trace
        = ({ events := s.events ++ pushedValues trace, curTurnId := t }, 0) := by
  induction trace with
  | nil => intro s hs _; simp [runAccesses, pushedValues, ← hs]
  | cons a rest ih =>
      intro s hs hall
      have ha : noForcedSetTurn a = true := hall a (List.mem_cons_self a rest)
      have hrest : ∀ b ∈ rest, noForcedSetTurn b = true :=
        fun b hb => hall b (List.mem_cons_of_mem a hb)
      cases a with
      | setTurn f nc =>
          have hf : f = false := by
            cases f
            · rfl
            · simp [noForcedSetTurn] at ha
          subst hf
          have hid : setCurrentTurn s t false nc = s := by
            simp [setCurrentTurn, hs]
          have hclr : clearedBy t s (BufferAccess.setTurn false nc) = false := by
            simp [clearedBy, hs]
          simp only [runAccesses, applyAccess, hid, hclr]
          rw [ih s hs hrest]
          simp [pushedValues]
      | push v =>
          have hclr : clearedBy t s (BufferAccess.push v) = false := rfl
          simp only [runAccesses, applyAccess, hclr]
          rw [ih { s with events := s.events ++ [v] } hs hrest]
          simp [pushedValues]

/-- A forced `SetCurrentTurn` without `noClear` always leaves the buffer
empty. -/
theorem setCurrentTurn_force_events {E : Type} (s : EventStreamState E)
    (t : Nat) : (setCurrentTurn s t true false).events = [] := by
  simp [setCurrentTurn]

/-! ## Claim theorems -/

/-- C2: `EventStreamNode::SetCurrentTurn(turn, force, noClear)` clears
the event buffer iff (the stored turn id differs from `turn.Id()` or
`force` is set) and `noClear` is unset; when the turn id differs or
`force` is set the stored turn id becomes `turn.Id()`, and otherwise
both the buffer and the stored turn id are unchanged. -/
theorem setCurrentTurn_spec (E : Type) (s : EventStreamState E) (t : Nat)
    (f nc : Bool) :
    (setCurrentTurn s t f nc).events
      = (if (s.curTurnId ≠ t ∨ f = true) ∧ nc = false then [] else s.events)
    ∧ (setCurrentTurn s t f nc).curTurnId
      = (if s.curTurnId ≠ t ∨ f = true then t else s.curTurnId) := by
  unfold setCurrentTurn
  by_cases h : s.curTurnId = t <;> cases f <;> cases nc <;> simp [h]

/-- C1: `EventSourceNode::ApplyInput(turn)` returns `true` iff the event
buffer is non-empty and `changedFlag_` is not yet set; `OnInputChange`
is called during `ApplyInput` exactly when it returns `true`; and when
it returns `false` the node's state (buffer and flags) is unchanged. -/
theorem applyInput_spec (E : Type) (s : EventSourceState E) (t : Nat) :
    ((applyInput s t).2.1 = true ↔ s.stream.events ≠ [] ∧ s.changedFlag = false)
    ∧ (EngineCall.onInputChange ∈ (applyInput s t).2.2 ↔ (applyInput s t).2.1 = true)
    ∧ ((applyInput s t).2.1 = false → (applyInput s t).1 = s) := by
  by_cases h : 0 < s.stream.events.length ∧ s.changedFlag = false
  · simp only [applyInput, if_pos h]
    refine ⟨iff_of_true trivial ⟨List.length_pos.mp h.1, h.2⟩, by simp, ?_⟩
    intro hf
    simp at hf
  · simp only [applyInput, if_neg h]
    refine ⟨iff_of_false (by simp) ?_, by simp, fun _ => trivial⟩
    intro hc
    exact h ⟨List.length_pos.mpr hc.1, hc.2⟩

/-- C9: when `changedFlag_` is set (the previous input was applied in an
earlier turn), the next `AddInput` first clears the buffer and resets
the flag before appending, and any further sequence of `AddInput` calls
leaves the buffer holding exactly the values added since, in insertion
order, with the flag still clear. -/
theorem addInput_clear_spec (E : Type) (s : EventSourceState E) (v : E)
    (vs : List E) (h : s.changedFlag = true) :
    (addInput s v).stream.events = [v]
    ∧ (addInput s v).changedFlag = false
    ∧ ((v :: vs).foldl addInput s).stream.events = v :: vs
    ∧ ((v :: vs).foldl addInput s).changedFlag = false := by
  have hstep : addInput s v =
      { stream := { s.stream with events := [v] }, changedFlag := false } := by
    simp [addInput, h]
  have hfold := foldl_addInput_of_not_changed vs (addInput s v) (by rw [hstep])
  refine ⟨by rw [hstep], by rw [hstep], ?_, ?_⟩
  · rw [List.foldl_cons, hfold.1, hstep]
    simp
  · rw [List.foldl_cons]; exact hfold.2

/-- Witness for C9 at a concrete applied source: buffer `[7]`, flag set;
adding `1` then `2` leaves exactly `[1, 2]` and a clear flag. -/
theorem addInput_clear_witness :
    (addInput ⟨⟨[7], 3⟩, true⟩ (1 : Nat)).stream.events = [1]
    ∧ (addInput ⟨⟨[7], 3⟩, true⟩ (1 : Nat)).changedFlag = false
    ∧ (([1, 2] : List Nat).foldl addInput ⟨⟨[7], 3⟩, true⟩).stream.events = [1, 2]
    ∧ (([1, 2] : List Nat).foldl addInput ⟨⟨[7], 3⟩, true⟩).changedFlag = false :=
  addInput_clear_spec Nat ⟨⟨[7], 3⟩, true⟩ 1 [2] rfl

/-- C10: `EventSourceNode::Tick` unconditionally fails its assertion —
an input vertex is never validly ticked, and a reachable `Tick` call
terminates with the assertion message instead of pulsing. -/
theorem eventSourceTick_asserts (E : Type) (s : EventSourceState E) (t : Nat) :
    eventSourceTick s t = TickOutcome.assertFailed tickedSourceMsg := rfl

/-- C8: on a node whose op was not yet stolen, `StealOp` marks the op as
stolen, detaches it from the node and returns it; a second `StealOp`
fails its assertion; and after a successful `StealOp` the destructor no
longer detaches the op. -/
theorem stealOp_spec (E Op : Type) (s : EventOpState E Op)
    (h : s.wasOpStolen = false) :
    stealOp s
      = StealResult.stolen s.op { s with wasOpStolen := true } [OpAction.detachOp]
    ∧ stealOp { s with wasOpStolen := true }
      = StealResult.assertFailed stolenTwiceMsg
    ∧ eventOpDestructorActions { s with wasOpStolen := true }
      = [OpAction.onNodeDestroy] := by
  refine ⟨by simp [stealOp, h], by simp [stealOp], by simp [eventOpDestructorActions]⟩

/-- Witness for C8 at a concrete op node (op `42`, not stolen). -/
theorem stealOp_witness :
    stealOp (⟨⟨[], 0⟩, 42, false⟩ : EventOpState Nat Nat)
      = StealResult.stolen 42 ⟨⟨[], 0⟩, 42, true⟩ [OpAction.detachOp]
    ∧ stealOp (⟨⟨[], 0⟩, 42, true⟩ : EventOpState Nat Nat)
      = StealResult.assertFailed stolenTwiceMsg
    ∧ eventOpDestructorActions (⟨⟨[], 0⟩, 42, true⟩ : EventOpState Nat Nat)
      = [OpAction.onNodeDestroy] :=
  stealOp_spec Nat Nat ⟨⟨[], 0⟩, 42, false⟩ rfl

/-- C7: with in-range `uint16_t` values, `IncReadyCount` increments the
ready count modulo `2^16` and returns `true` iff the pre-increment value
`t` satisfies `t < WaitCount - 1` under promotion to `int`, i.e. iff
`t + 2 ≤ WaitCount` — so with `WaitCount = 0` it always returns `false`;
`DecReadyCount` decrements the ready count and returns `true` iff the
pre-decrement value exceeds 1. -/
theorem readyCount_spec (s : NodeState) (hr : s.readyCount < u16Mod) :
    ((incReadyCount s).2 = true ↔ s.readyCount + 2 ≤ s.waitCount)
    ∧ (incReadyCount s).1.readyCount = (s.readyCount + 1) % u16Mod
    ∧ (s.waitCount = 0 → (incReadyCount s).2 = false)
    ∧ ((decReadyCount s).2 = true ↔ 1 < s.readyCount)
    ∧ (0 < s.readyCount → (decReadyCount s).1.readyCount = s.readyCount - 1) := by
  unfold incReadyCount decReadyCount u16Mod at *
  refine ⟨?_, rfl, ?_, ?_, ?_⟩
  · simp only [decide_eq_true_eq]
    omega
  · intro hw
    simp only [hw, decide_eq_false_iff_not]
    omega
  · simp only [decide_eq_true_eq]
  · intro hpos
    simp only
    omega

/-- Witness for C7 at ready count 3, wait count 5: `IncReadyCount`
returns `true` (3 + 2 ≤ 5) and stores 4; `DecReadyCount` returns `true`
and stores 2. -/
theorem readyCount_witness :
    ((incReadyCount ⟨3, 5⟩).2 = true ↔ (3 : Nat) + 2 ≤ 5)
    ∧ (incReadyCount ⟨3, 5⟩).1.readyCount = (3 + 1) % u16Mod
    ∧ ((5 : Nat) = 0 → (incReadyCount ⟨3, 5⟩).2 = false)
    ∧ ((decReadyCount ⟨3, 5⟩).2 = true ↔ (1 : Nat) < 3)
    ∧ ((0 : Nat) < 3 → (decReadyCount ⟨3, 5⟩).1.readyCount = 3 - 1) :=
  readyCount_spec ⟨3, 5⟩ (by norm_num [u16Mod])

/-- Counterexample for C6: `DecReadyCount` at ready count 0 is not
detected as a contract violation — the call returns normally (`false`)
and the count silently wraps to `2^16 - 1`, which is larger than the
count it started from. -/
theorem decReadyCount_underflow_cex :
    decReadyCount ⟨0, 0⟩ = (⟨65535, 0⟩, false)
    ∧ 0 < (decReadyCount ⟨0, 0⟩).1.readyCount := by
  constructor <;> decide

/-- C6 as amended: `DecReadyCount` performs no underflow detection: a
call with ready count 0 returns `false` and wraps the stored count to
`2^16 - 1` (a silent modulo-`2^16` underflow). -/
theorem decReadyCount_no_detection (w : Nat) :
    decReadyCount { readyCount := 0, waitCount := w }
      = ({ readyCount := u16Mod - 1, waitCount := w }, false) := by
  simp [decReadyCount]

/-- C3: `EventFlattenNode::Tick(turn)` takes exactly one of two paths:
when the outer signal's current inner node differs from the stored
inner, it substitutes the new inner, calls `OnDynamicNodeDetach` on the
old inner then `OnDynamicNodeAttach` on the new one, and returns without
pulsing (the dynamic-reattach short-circuit); otherwise it appends the
inner node's events for this turn to its own buffer in order and ends
with exactly `OnNodePulse` (buffer non-empty) or `OnNodeIdlePulse`
(buffer empty). -/
theorem flattenTick_spec (E : Type) (env : FlattenEnv E) (s : FlattenState E)
    (t : Nat) :
    (env.outerInner ≠ s.inner →
      (flattenTick env s t).1.inner = env.outerInner
      ∧ (flattenTick env s t).2.2
        = [EngineCall.onDynamicNodeDetach s.inner,
           EngineCall.onDynamicNodeAttach env.outerInner]
      ∧ EngineCall.onNodePulse ∉ (flattenTick env s t).2.2
      ∧ EngineCall.onNodeIdlePulse ∉ (flattenTick env s t).2.2)
    ∧ (env.outerInner = s.inner →
      (flattenTick env s t).1.stream.events
        = (setCurrentTurn (env.innerStates s.inner) t false false).events
      ∧ ((flattenTick env s t).2.2 = [EngineCall.onNodePulse]
          ↔ (setCurrentTurn (env.innerStates s.inner) t false false).events ≠ [])
      ∧ ((flattenTick env s t).2.2 = [EngineCall.onNodeIdlePulse]
          ↔ (setCurrentTurn (env.innerStates s.inner) t false false).events = [])) := by
  by_cases h : env.outerInner = s.inner
  · refine ⟨fun hne => absurd h hne, fun _ => ⟨?_, ?_, ?_⟩⟩
    · simp [flattenTick, h, updateNode, setCurrentTurn_force_events]
    · by_cases hX : (setCurrentTurn (env.innerStates s.inner) t false false).events = []
      · simp [flattenTick, h, updateNode, setCurrentTurn_force_events, hX]
      · simp [flattenTick, h, updateNode, setCurrentTurn_force_events, hX,
          List.length_pos.mpr hX]
    · by_cases hX : (setCurrentTurn (env.innerStates s.inner) t false false).events = []
      · simp [flattenTick, h, updateNode, setCurrentTurn_force_events, hX]
      · simp [flattenTick, h, updateNode, setCurrentTurn_force_events, hX,
          List.length_pos.mpr hX]
  · refine ⟨fun _ => ⟨?_, ?_, ?_, ?_⟩, fun he => absurd he h⟩
    · simp [flattenTick, h]
    · simp [flattenTick, h]
    · simp [flattenTick, h]
    · simp [flattenTick, h]

/-- C5: after `SyncedEventFilterNode::Tick(turn)` the node's buffer is
exactly the subsequence of the source's events for this turn accepted by
the filter (evaluated with the current dependency signal values), in
source order, and the tick ends with `OnNodeIdlePulse` when no event is
accepted and `OnNodePulse` otherwise. -/
theorem syncedFilterTick_spec (E Dv : Type) (p : E → Dv → Bool)
    (s : SyncedFilterState E Dv) (t : Nat) :
    (syncedEventFilterTick p s t).1.stream.events
      = (setCurrentTurn s.source t false false).events.filter
          (fun e => p e s.depsValue)
    ∧ List.Sublist ((syncedEventFilterTick p s t).1.stream.events)
        ((setCurrentTurn s.source t false false).events)
    ∧ ((syncedEventFilterTick p s t).2 = [EngineCall.onNodePulse]
        ↔ (setCurrentTurn s.source t false false).events.filter
            (fun e => p e s.depsValue) ≠ [])
    ∧ ((syncedEventFilterTick p s t).2 = [EngineCall.onNodeIdlePulse]
        ↔ (setCurrentTurn s.source t false false).events.filter
            (fun e => p e s.depsValue) = []) := by
  have hev : (syncedEventFilterTick p s t).1.stream.events
      = (setCurrentTurn s.source t false false).events.filter
          (fun e => p e s.depsValue) := by
    simp [syncedEventFilterTick, setCurrentTurn_force_events]
  refine ⟨hev, by rw [hev]; exact List.filter_sublist _, ?_, ?_⟩
  · by_cases hX : (setCurrentTurn s.source t false false).events.filter
        (fun e => p e s.depsValue) = []
    · simp [syncedEventFilterTick, setCurrentTurn_force_events, hX]
    · simp [syncedEventFilterTick, setCurrentTurn_force_events, hX]
  · by_cases hX : (setCurrentTurn s.source t false false).events.filter
        (fun e => p e s.depsValue) = []
    · simp [syncedEventFilterTick, setCurrentTurn_force_events, hX]
    · simp [syncedEventFilterTick, setCurrentTurn_force_events, hX]

/-- C4 counterexample: the buffer is not cleared at most once per turn.
When a vertex executes twice in the same turn (the `repeated` flag after
a dynamic reattach, or the flatten short-circuit re-tick), each
execution opens with a forced `SetCurrentTurn(turn, true)`
(EventNodes.h `Tick` bodies), so the trace of that turn holds two forced
accesses: the buffer is cleared twice and the first execution's pushed
events are discarded. -/
theorem bufferClear_twice_cex :
    (runAccesses 5 (⟨[9], 0⟩ : EventStreamState Nat)
      [BufferAccess.setTurn true false, BufferAccess.push 1,
       BufferAccess.setTurn true false, BufferAccess.push 2]).2 = 2
    ∧ (runAccesses 5 (⟨[9], 0⟩ : EventStreamState Nat)
      [BufferAccess.setTurn true false, BufferAccess.push 1,
       BufferAccess.setTurn true false, BufferAccess.push 2]).1.events = [2] := by
  decide

/-- C4 as amended: within a single execution of a vertex in a turn —
the execution's own forced `SetCurrentTurn` is the first access, and
every later `SetCurrentTurn` of the turn (the reads by successors)
passes `forceUpdate = false`, the readers' default — the event buffer is
cleared at most once, on that first access, and all subsequent accesses
only append to it.  A second execution in the same turn opens with
another forced `SetCurrentTurn`, which clears again (see the
counterexample). -/
theorem bufferClear_once_spec (E : Type) (s : EventStreamState E) (t : Nat)
    (f nc : Bool) (rest : List (BufferAccess E))
    (hrest : ∀ b ∈ rest, noForcedSetTurn b = true) :
    (runAccesses t s (BufferAccess.setTurn f nc :: rest)).2 ≤ 1
    ∧ (runAccesses t s (BufferAccess.setTurn f nc :: rest)).1.events
      = (setCurrentTurn s t f nc).events ++ pushedValues rest := by
  have happ : applyAccess t s (BufferAccess.setTurn f nc)
      = setCurrentTurn s t f nc := rfl
  have hcur := setCurrentTurn_curTurnId_eq s t f nc
  have hrun := runAccesses_no_force t rest (setCurrentTurn s t f nc) hcur hrest
  constructor
  · simp only [runAccesses, happ, hrun]
    split <;> simp
  · simp only [runAccesses, happ, hrun]

/-- Witness for C4 at a concrete trace: a forced clear at the head of
the turn, then pushes and an unforced `SetCurrentTurn`; exactly one
clear happens and `[1, 2]` is appended. -/
theorem bufferClear_once_witness :
    (runAccesses 5 (⟨[9], 0⟩ : EventStreamState Nat)
      (BufferAccess.setTurn true false
        :: [BufferAccess.push 1, BufferAccess.setTurn false false,
            BufferAccess.push 2])).2 ≤ 1
    ∧ (runAccesses 5 (⟨[9], 0⟩ : EventStreamState Nat)
      (BufferAccess.setTurn true false
        :: [BufferAccess.push 1, BufferAccess.setTurn false false,
            BufferAccess.push 2])).1.events
      = (setCurrentTurn (⟨[9], 0⟩ : EventStreamState Nat) 5 true false).events
        ++ pushedValues
            [BufferAccess.push 1, BufferAccess.setTurn false false,
             BufferAccess.push 2] :=
  bufferClear_once_spec Nat ⟨[9], 0⟩ 5 true false
    [BufferAccess.push 1, BufferAccess.setTurn false false, BufferAccess.push 2]
    (by decide)

end React
